import Mathlib

/-!
Shallow embedding of the Prophet SDK core (token manager and paginating
flow iterator) and verification of its specified properties.

The token manager is translated from `prophet/sdk/auth.py`, the iterator
from `prophet/sdk/flows.py` and `prophet/sdk/flows/models.py`.  Network
calls are modelled by passing the scripted outcome of each request
explicitly; machine time is modelled by a rational `now` parameter.
-/

namespace ProphetSDK

/-- Cached token state of a `TokenManager`: the `_token` and `_expires_at`
fields, each `None` or present. -/
structure TMState where
  token : Option String
  expiresAt : Option ℚ
deriving DecidableEq

/-- State right after `TokenManager.__init__`. -/
def TMState.init : TMState := ⟨none, none⟩

/-- Body of an OAuth2 token endpoint response; every key may be absent. -/
structure AuthBody where
  errorMsg : Option String
  code : Option String
  accessToken : Option String
  expiresAt : Option ℚ
deriving DecidableEq

/-- Outcome of the HTTP POST performed by `_fetch_token`: either a
transport exception (`requests.RequestException`) or a response with a
status code and body. -/
inductive AuthFetchResult where
  | exn (msg : String)
  | resp (status : Nat) (body : AuthBody)
deriving DecidableEq

/-- Errors the token manager can raise: `AuthenticationError` (message and
optional code), a `KeyError` from indexing a malformed 200 body, and the
`assert` in `get_token`/`refresh`. -/
inductive TMErr where
  | authenticationError (message : String) (code : Option String)
  | keyError
  | assertionError
deriving DecidableEq

/-- Result of one `_fetch_token` call: the error raised (if any), the
token state afterwards, and the number of network fetches performed. -/
structure TMOut where
  err : Option TMErr
  state : TMState
  fetches : Nat
deriving DecidableEq

/-- `TokenManager._needs_refresh`: `True` when either field is `None`,
otherwise `time.time() >= expires_at - refresh_threshold`. -/
def needs_refresh (th : ℚ) (s : TMState) (now : ℚ) : Bool :=
  match s.token, s.expiresAt with
  | some _, some e => decide (now ≥ e - th)
  | _, _ => true

/-- `TokenManager.is_expired`: `True` when `_expires_at` is `None`,
otherwise `time.time() >= expires_at`. -/
def is_expired (s : TMState) (now : ℚ) : Bool :=
  match s.expiresAt with
  | none => true
  | some e => decide (now ≥ e)

/-- Observable effect of one `is_expired()` call: its result, the state
afterwards, and the number of network fetches performed.  The method body
only reads `_expires_at` and compares, so the state passes through and the
fetch count is zero. -/
def isExpiredRun (s : TMState) (now : ℚ) : Bool × TMState × Nat :=
  (is_expired s now, s, 0)

/-- `TokenManager._fetch_token`.  A transport exception or non-200 status
raises `AuthenticationError` before any assignment; on a 200 body the code
assigns `self._token = data["access_token"]` and then
`self._expires_at = float(data["expires_at"])`, so a 200 body missing
`expires_at` leaves the token assigned but not the expiry. -/
def fetch_token (s : TMState) (fr : AuthFetchResult) : TMOut :=
  match fr with
  | .exn m =>
    ⟨some (.authenticationError ("Failed to connect to auth server: " ++ m) none), s, 1⟩
  | .resp status body =>
    if status = 401 then
      ⟨some (.authenticationError (body.errorMsg.getD "Invalid credentials")
        (some (body.code.getD "invalid_credentials"))), s, 1⟩
    else if status ≠ 200 then
      ⟨some (.authenticationError ("Token request failed with status " ++ toString status)
        (some "token_request_failed")), s, 1⟩
    else
      match body.accessToken with
      | none => ⟨some .keyError, s, 1⟩
      | some t =>
        match body.expiresAt with
        | none => ⟨some .keyError, { s with token := some t }, 1⟩
        | some e => ⟨none, ⟨some t, some e⟩, 1⟩

/-- Result of a `get_token()`/`refresh()` call. -/
structure GetOut where
  result : Except TMErr String
  state : TMState
  fetches : Nat

/-- `TokenManager.get_token`: fetch when `_needs_refresh()`, then
`assert self._token is not None` and return it. -/
def get_token (th : ℚ) (s : TMState) (now : ℚ) (fr : AuthFetchResult) : GetOut :=
  if needs_refresh th s now then
    let o := fetch_token s fr
    match o.err with
    | some e => ⟨.error e, o.state, o.fetches⟩
    | none =>
      match o.state.token with
      | some t => ⟨.ok t, o.state, o.fetches⟩
      | none => ⟨.error .assertionError, o.state, o.fetches⟩
  else
    match s.token with
    | some t => ⟨.ok t, s, 0⟩
    | none => ⟨.error .assertionError, s, 0⟩

/-- `TokenManager.refresh`: unconditional `_fetch_token()` followed by the
same assert-and-return. -/
def refresh (s : TMState) (fr : AuthFetchResult) : GetOut :=
  let o := fetch_token s fr
  match o.err with
  | some e => ⟨.error e, o.state, o.fetches⟩
  | none =>
    match o.state.token with
    | some t => ⟨.ok t, o.state, o.fetches⟩
    | none => ⟨.error .assertionError, o.state, o.fetches⟩

/-- `TokenManager.clear`: set both fields to `None`. -/
def clear (_s : TMState) : TMState := ⟨none, none⟩

/-- The TokenState invariant: the access token is present iff the expiry
timestamp is present. -/
def tmInv (s : TMState) : Prop := s.token.isSome = s.expiresAt.isSome

/-- Well-formedness of a scripted token fetch outcome: every 200 response
carries both an access token and an expiry instant. -/
def wfFetch : AuthFetchResult → Prop
  | .resp 200 b => b.accessToken.isSome = true ∧ b.expiresAt.isSome = true
  | _ => True

/-- Per-instance portion of a `/search/records/1.0` response body; each
key may be absent (`data.get` with a default in the source). -/
structure InstanceData (α : Type) where
  flows : Option (List α)
  found : Option Nat
  total : Option Nat
  returned : Option Nat
  current_page : Option Nat
  pages : Option Nat
  more_data_available : Option Bool
  took : Option ℚ

/-- The empty dictionary `{}` used when the instance key is missing. -/
def InstanceData.empty (α : Type) : InstanceData α :=
  ⟨none, none, none, none, none, none, none, none⟩

/-- `FlowPage` (`flows/models.py`). -/
structure FlowPage (α : Type) where
  flows : List α
  found : Nat
  total : Nat
  returned : Nat
  current_page : Nat
  page_count : Nat
  has_more : Bool
  took : ℚ
  instance_id : String
deriving DecidableEq

/-- `FlowPage.from_response`: defaults for every absent key, with
`returned` defaulting to the number of parsed flows and `pages` to 1. -/
def FlowPage.from_response {α : Type} (d : InstanceData α) (iid : String) : FlowPage α :=
  let fl := d.flows.getD []
  { flows := fl
    found := d.found.getD 0
    total := d.total.getD 0
    returned := d.returned.getD fl.length
    current_page := d.current_page.getD 0
    page_count := d.pages.getD 1
    has_more := d.more_data_available.getD false
    took := d.took.getD 0
    instance_id := iid }

/-- A `/search/records/1.0` HTTP response as read by `_fetch_page`: the
status code, the fields each error branch reads from the JSON body, and
the keyed-by-instance-id success body. -/
structure HttpResponse (α : Type) where
  statusCode : Nat
  errField : Option String
  codeField : Option String
  errObjMessage : Option String
  errObjDetails : Option String
  instanceData : String → Option (InstanceData α)

/-- Exceptions raised on the page-fetch path (`exceptions.py`):
`AuthenticationError`, `APIError` (message, status code, optional
error-type tag, optional details), the distinct `ValidationError` class,
and the `IndexError` from `instances[0]` on an empty instance list. -/
inductive SdkError where
  | authenticationError (message : String) (code : Option String)
  | apiError (message : String) (statusCode : Nat) (errorType : Option String)
      (details : Option String)
  | validationError (message : String) (field : Option String)
  | indexError
deriving DecidableEq

/-- True exactly on the `ValidationError` exception class. -/
def SdkError.isValidation : SdkError → Bool
  | .validationError _ _ => true
  | _ => false

/-- True when a fetch result is a raised `ValidationError`. -/
def raisesValidation {α : Type} : Except SdkError α → Bool
  | .error e => e.isValidation
  | .ok _ => false

/-- `FlowIterator._fetch_page` after the transport call: error mapping
(401, 400, other non-200) and extraction of the first configured
instance's portion of the body. -/
def fetchPage {α : Type} (instances : List String) (resp : HttpResponse α) :
    Except SdkError (FlowPage α) :=
  if resp.statusCode = 401 then
    .error (.authenticationError (resp.errField.getD "Authentication failed") resp.codeField)
  else if resp.statusCode = 400 then
    .error (.apiError (resp.errObjMessage.getD "Validation failed") 400
      (some "validation_error") resp.errObjDetails)
  else if resp.statusCode ≠ 200 then
    .error (.apiError ("Search request failed with status " ++ toString resp.statusCode)
      resp.statusCode none none)
  else
    match instances.head? with
    | none => .error .indexError
    | some iid =>
      .ok (FlowPage.from_response ((resp.instanceData iid).getD (InstanceData.empty α)) iid)

/-- Mutable iteration state of a `FlowIterator` (`_current_page`,
`_page_num`, `_flow_index`, `_total_yielded`, `_limit`, `_exhausted`). -/
structure IterState (α : Type) where
  currentPage : Option (FlowPage α)
  pageNum : Nat
  flowIndex : Nat
  totalYielded : Nat
  limit : Option Nat
  exhausted : Bool
deriving DecidableEq

/-- Iteration state right after `FlowIterator.__init__`. -/
def IterState.fresh (α : Type) : IterState α := ⟨none, 0, 0, 0, none, false⟩

/-- `FlowIterator.take`: set (or overwrite) `_limit` and return the same
iterator. -/
def IterState.take {α : Type} (s : IterState α) (n : Nat) : IterState α :=
  { s with limit := some n }

/-- The cap test at the top of `__next__`:
`self._limit is not None and self._total_yielded >= self._limit`. -/
def limitHit {α : Type} (s : IterState α) : Bool :=
  match s.limit with
  | some l => decide (s.totalYielded ≥ l)
  | none => false

/-- Outcome of one `__next__` call: a record, `StopIteration`, a raised
exception, or fuel exhaustion of the model (never reached in the proofs
below). -/
inductive StepRes (α : Type) where
  | yield (a : α)
  | stop
  | raised (e : SdkError)
  | fuelOut
deriving DecidableEq

/-- Result of one `__next__` call: outcome, state afterwards, and the page
indices requested from the server during the call, in order. -/
structure StepOut (α : Type) where
  res : StepRes α
  state : IterState α
  reqs : List Nat
deriving DecidableEq

/-- The `while self._flow_index >= len(self._current_page.flows)` loop of
`__next__`, together with the yield at its exit.  `p` is the page buffered
in `s.currentPage`.  A raised fetch error aborts before the assignments of
the loop body. -/
def pageLoop {α : Type} (fp : Nat → Except SdkError (FlowPage α)) :
    Nat → FlowPage α → IterState α → List Nat → StepOut α
  | 0, _, s, acc => ⟨.fuelOut, s, acc⟩
  | fuel + 1, p, s, acc =>
    if hlt : s.flowIndex < p.flows.length then
      ⟨.yield (p.flows.get ⟨s.flowIndex, hlt⟩),
        { s with flowIndex := s.flowIndex + 1, totalYielded := s.totalYielded + 1 }, acc⟩
    else if p.has_more then
      match fp s.pageNum with
      | .error e => ⟨.raised e, s, acc ++ [s.pageNum]⟩
      | .ok q =>
        pageLoop fp fuel q
          { s with currentPage := some q, pageNum := s.pageNum + 1, flowIndex := 0 }
          (acc ++ [s.pageNum])
    else ⟨.stop, s, acc⟩

/-- `FlowIterator.__next__`: cap check, first-page fetch when no page is
buffered (setting `_page_num = 1`), then the page-advance loop. -/
def iterNext {α : Type} (fp : Nat → Except SdkError (FlowPage α)) (fuel : Nat)
    (s : IterState α) : StepOut α :=
  if limitHit s then ⟨.stop, s, []⟩
  else
    match s.currentPage with
    | some p => pageLoop fp fuel p s []
    | none =>
      match fp 0 with
      | .error e => ⟨.raised e, s, [0]⟩
      | .ok p =>
        pageLoop fp fuel p
          { s with currentPage := some p, pageNum := 1 } [0]

/-- Result of one `next_page()` call. -/
structure PageOut (α : Type) where
  result : Except SdkError (Option (FlowPage α))
  state : IterState α
  reqs : List Nat

/-- `FlowIterator.next_page`: `None` immediately when `_exhausted`;
otherwise fetch `_page_num`, increment it, and set `_exhausted` when the
page reports no more data.  A raised fetch error aborts before the
increment. -/
def nextPage {α : Type} (fp : Nat → Except SdkError (FlowPage α)) (s : IterState α) :
    PageOut α :=
  if s.exhausted then ⟨.ok none, s, []⟩
  else
    match fp s.pageNum with
    | .error e => ⟨.error e, s, [s.pageNum]⟩
    | .ok page =>
      ⟨.ok (some page),
        { s with pageNum := s.pageNum + 1,
                 exhausted := if page.has_more then s.exhausted else true },
        [s.pageNum]⟩

/-- `FlowIterator.first`: `return self._fetch_page(0)` — one request for
page 0, no state touched. -/
def firstPage {α : Type} (fp : Nat → Except SdkError (FlowPage α)) (s : IterState α) :
    Except SdkError (FlowPage α) × IterState α × List Nat :=
  (fp 0, s, [0])

/-- Repeated flat iteration: call `__next__` until `StopIteration` or an
exception, collecting the yielded records and the requested page indices.
`stopped` is false only when the step budget ran out. -/
structure RunOut (α : Type) where
  yields : List α
  state : IterState α
  reqs : List Nat
  stopped : Bool
  error : Option SdkError
deriving DecidableEq

/-- Drive the flat iteration for at most `steps` calls of `__next__`, each
given loop fuel `innerFuel`. -/
def runFlat {α : Type} (fp : Nat → Except SdkError (FlowPage α)) (innerFuel : Nat) :
    Nat → IterState α → RunOut α
  | 0, s => ⟨[], s, [], false, none⟩
  | steps + 1, s =>
    match iterNext fp innerFuel s with
    | ⟨.yield a, s', reqs⟩ =>
      let r := runFlat fp innerFuel steps s'
      ⟨a :: r.yields, r.state, reqs ++ r.reqs, r.stopped, r.error⟩
    | ⟨.stop, s', reqs⟩ => ⟨[], s', reqs, true, none⟩
    | ⟨.raised e, s', reqs⟩ => ⟨[], s', reqs, true, some e⟩
    | ⟨.fuelOut, s', reqs⟩ => ⟨[], s', reqs, false, none⟩

/-- A 200 response whose body carries, for every instance id, a record
list and a `more_data_available` flag (all other keys absent). -/
def okResp {α : Type} (fl : List α) (hm : Bool) : HttpResponse α :=
  ⟨200, none, none, none, none,
    fun _ => some ⟨some fl, none, none, none, none, none, some hm, none⟩⟩

/-- A generic server-error response used beyond the scripted pages. -/
def errResp (α : Type) : HttpResponse α :=
  ⟨500, none, none, none, none, fun _ => none⟩

/-- The page produced by `fetchPage` on `okResp fl hm` for instance
`iid`. -/
def mkPage {α : Type} (iid : String) (fl : List α) (hm : Bool) : FlowPage α :=
  ⟨fl, 0, 0, fl.length, 0, 1, hm, 0, iid⟩

/-- Scripted server for a fixed page list: page `i` answers with the
`i`-th record list, reporting more data exactly below the last page. -/
def scriptOfPages {α : Type} (pages : List (List α)) : Nat → HttpResponse α :=
  fun n =>
    if h : n < pages.length then okResp (pages.get ⟨n, h⟩) (decide (n + 1 < pages.length))
    else errResp α

/-- Compose `_fetch_page` with a scripted server. -/
def fpOf {α : Type} (instances : List String) (script : Nat → HttpResponse α) :
    Nat → Except SdkError (FlowPage α) :=
  fun n => fetchPage instances (script n)

/-- Total number of scripted records. -/
def totalLen {α : Type} (pages : List (List α)) : Nat :=
  (pages.map List.length).sum

/-- `pagesAt fp iid n rest`: from page index `n` on, the fetch function
answers the scripted suffix `rest`, each page reporting more data exactly
when further pages follow. -/
def pagesAt {α : Type} (fp : Nat → Except SdkError (FlowPage α)) (iid : String) :
    Nat → List (List α) → Prop
  | _, [] => True
  | n, fl :: rest =>
    fp n = .ok (mkPage iid fl (!rest.isEmpty)) ∧ pagesAt fp iid (n + 1) rest

/-- A state from which flat iteration stops immediately without a fetch:
no cap hit, and the buffered page is consumed and reports no more data. -/
def flatDone {α : Type} (s : IterState α) : Prop :=
  limitHit s = false
  ∧ ∃ q, s.currentPage = some q ∧ q.has_more = false ∧ ¬ s.flowIndex < q.flows.length

/-- The cap admits `m` further yields from state `s`. -/
def limitAllows {α : Type} (s : IterState α) (m : Nat) : Prop :=
  ∀ L, s.limit = some L → s.totalYielded + m ≤ L

/-- Number of leading pages the iterator must fetch to produce `k`
records (counting empty pages passed over on the way); all pages when
fewer than `k` records exist. -/
def pagesNeeded {α : Type} : List (List α) → Nat → Nat
  | _, 0 => 0
  | [], _ + 1 => 0
  | fl :: rest, k + 1 =>
    1 + (if k + 1 ≤ fl.length then 0 else pagesNeeded rest (k + 1 - fl.length))

/-- Further pages needed when the buffered page still holds `pl`
unconsumed records and `k` more records are wanted. -/
def fetchesNeeded {α : Type} (pl : Nat) (rest : List (List α)) (k : Nat) : Nat :=
  if k ≤ pl then 0 else pagesNeeded rest (k - pl)

/-- Scripted server refuting C5 as stated: page 0 is an empty page that
reports more data, page 1 answers 401. -/
def c5Script : Nat → HttpResponse Nat :=
  fun n =>
    if n = 0 then okResp [] true
    else ⟨401, some "expired token", some "token_expired", none, none, fun _ => none⟩

/-- A 400 response with a structured error object, for C6. -/
def resp400x : HttpResponse Nat :=
  ⟨400, none, none, some "bad query", some "unknown operator wi2", fun _ => none⟩

theorem fetch_token_fetches (s : TMState) (fr : AuthFetchResult) :
    (fetch_token s fr).fetches = 1 := by
  cases fr with
  | exn m => rfl
  | resp st b =>
    simp only [fetch_token]
    split
    · rfl
    · split
      · rfl
      · cases b.accessToken with
        | none => rfl
        | some t => cases b.expiresAt with
          | none => rfl
          | some e => rfl

theorem get_token_fetches (th : ℚ) (s : TMState) (now : ℚ) (fr : AuthFetchResult) :
    (get_token th s now fr).fetches = if needs_refresh th s now then 1 else 0 := by
  by_cases h : needs_refresh th s now = true
  · simp only [get_token, h, if_true]
    have hf := fetch_token_fetches s fr
    cases he : (fetch_token s fr).err with
    | some e => simp [he, hf]
    | none =>
      cases ht : (fetch_token s fr).state.token with
      | some t => simp [he, ht, hf]
      | none => simp [he, ht, hf]
  · simp only [Bool.not_eq_true] at h
    simp only [get_token, h, Bool.false_eq_true, if_false]
    cases ht : s.token with
    | some t => simp [ht]
    | none => simp [ht]

theorem needs_refresh_iff (th : ℚ) (s : TMState) (now : ℚ) :
    needs_refresh th s now = true ↔
      (s.token = none ∨ s.expiresAt = none ∨ ∃ e, s.expiresAt = some e ∧ now ≥ e - th) := by
  cases ht : s.token with
  | none => simp [needs_refresh, ht]
  | some t =>
    cases he : s.expiresAt with
    | none => simp [needs_refresh, ht, he]
    | some e =>
      simp only [needs_refresh, ht, he, decide_eq_true_eq, Option.some.injEq,
        reduceCtorEq, false_or]
      constructor
      · intro h
        exact ⟨e, rfl, h⟩
      · rintro ⟨e', he', h⟩
        cases he'
        exact h

theorem needs_refresh_false_token (th : ℚ) (s : TMState) (now : ℚ)
    (h : needs_refresh th s now = false) : ∃ t, s.token = some t := by
  cases ht : s.token with
  | some t => exact ⟨t, rfl⟩
  | none =>
    exfalso
    cases he : s.expiresAt <;> simp [needs_refresh, ht, he] at h

theorem fetch_token_ok_state (s : TMState) (fr : AuthFetchResult)
    (h : (fetch_token s fr).err = none) :
    ∃ t e, (fetch_token s fr).state = ⟨some t, some e⟩ := by
  cases fr with
  | exn m => simp [fetch_token] at h
  | resp st b =>
    by_cases h401 : st = 401
    · simp [fetch_token, h401] at h
    · by_cases h200 : st = 200
      · subst h200
        simp only [fetch_token, if_neg h401, ne_eq, not_true_eq_false, if_false] at h ⊢
        cases hat : b.accessToken with
        | none => simp [hat] at h
        | some t =>
          cases hea : b.expiresAt with
          | none => simp [hat, hea] at h
          | some e =>
            simp only [hat, hea]
            exact ⟨t, e, rfl⟩
      · simp [fetch_token, h401, h200] at h

theorem fetch_token_inv (s : TMState) (fr : AuthFetchResult)
    (hs : tmInv s) (hw : wfFetch fr) : tmInv (fetch_token s fr).state := by
  cases fr with
  | exn m => exact hs
  | resp st b =>
    simp only [fetch_token]
    split
    · exact hs
    · split
      · exact hs
      · rename_i h401 h200
        have hst : st = 200 := by omega
        subst hst
        obtain ⟨ha, he⟩ := hw
        cases hat : b.accessToken with
        | none => rw [hat] at ha; simp at ha
        | some t =>
          cases hea : b.expiresAt with
          | none => rw [hea] at he; simp at he
          | some e => rfl

/-- C2: `getToken()` performs a token fetch iff no token state is cached or
the current time is at or past `expiresAt - refreshThreshold`; for every
`refreshThreshold >= 0` it performs exactly one fetch with no prior state
and zero fetches when called again while `now < expiresAt -
refreshThreshold`, and it returns a token unless the fetch itself fails. -/
theorem C2_get_token_fetch_policy :
    (∀ (th : ℚ) (s : TMState) (now : ℚ) (fr : AuthFetchResult),
      ((get_token th s now fr).fetches = 1 ↔
        (s.token = none ∨ s.expiresAt = none ∨ ∃ e, s.expiresAt = some e ∧ now ≥ e - th)))
    ∧ (∀ (th now : ℚ) (fr : AuthFetchResult), 0 ≤ th →
        (get_token th TMState.init now fr).fetches = 1)
    ∧ (∀ (th now now' : ℚ) (em cd : Option String) (t : String) (e : ℚ)
        (fr' : AuthFetchResult), 0 ≤ th → now' < e - th →
        (get_token th (get_token th TMState.init now
            (.resp 200 ⟨em, cd, some t, some e⟩)).state now' fr').fetches = 0
        ∧ (get_token th (get_token th TMState.init now
            (.resp 200 ⟨em, cd, some t, some e⟩)).state now' fr').result = .ok t)
    ∧ (∀ (th : ℚ) (s : TMState) (now : ℚ) (fr : AuthFetchResult) (e : TMErr),
        (get_token th s now fr).result = .error e →
        needs_refresh th s now = true ∧ (fetch_token s fr).err = some e)
    ∧ (∀ (th : ℚ) (s : TMState) (now : ℚ) (fr : AuthFetchResult),
        needs_refresh th s now = false →
        ∃ t, s.token = some t ∧ (get_token th s now fr).result = .ok t) := by
  refine ⟨?_, ?_, ?_, ?_, ?_⟩
  · intro th s now fr
    by_cases h : needs_refresh th s now = true
    · rw [get_token_fetches, if_pos h]
      exact iff_of_true rfl ((needs_refresh_iff th s now).mp h)
    · have h' : needs_refresh th s now = false := by
        simpa using h
      rw [get_token_fetches, h']
      simp only [Bool.false_eq_true, if_false]
      refine iff_of_false (by decide) ?_
      intro hr
      have hx := (needs_refresh_iff th s now).mpr hr
      rw [h'] at hx
      exact Bool.false_ne_true hx
  · intro th now fr _
    rw [get_token_fetches]
    simp [needs_refresh, TMState.init]
  · intro th now now' em cd t e fr' _ hlt
    have hstate : (get_token th TMState.init now
        (.resp 200 ⟨em, cd, some t, some e⟩)).state = ⟨some t, some e⟩ := by
      simp [get_token, needs_refresh, TMState.init, fetch_token]
    rw [hstate]
    have hnr : needs_refresh th ⟨some t, some e⟩ now' = false := by
      simp only [needs_refresh, decide_eq_false_iff_not, not_le]
      linarith
    constructor
    · rw [get_token_fetches, hnr]; rfl
    · simp [get_token, hnr]
  · intro th s now fr e herr
    by_cases h : needs_refresh th s now = true
    · refine ⟨h, ?_⟩
      simp only [get_token, h, if_true] at herr
      cases hfe : (fetch_token s fr).err with
      | some e' =>
        rw [hfe] at herr
        simp only [GetOut.mk.injEq] at herr
        cases herr
        rfl
      | none =>
        obtain ⟨t', e', hst⟩ := fetch_token_ok_state s fr hfe
        rw [hfe, hst] at herr
        simp at herr
    · exfalso
      simp only [Bool.not_eq_true] at h
      obtain ⟨t, ht⟩ := needs_refresh_false_token th s now h
      simp [get_token, h, ht] at herr
  · intro th s now fr h
    obtain ⟨t, ht⟩ := needs_refresh_false_token th s now h
    exact ⟨t, ht, by simp [get_token, h, ht]⟩

/-- C2 witness: with `refreshThreshold = 0`, a fresh manager fetches once
and a second call at `now' = 1 < 5 = expiresAt` fetches zero times and
returns the cached token. -/
theorem C2_witness :
    (get_token 0 TMState.init 0 (.resp 200 ⟨none, none, some "tok", some 5⟩)).fetches = 1
    ∧ (get_token 0 (get_token 0 TMState.init 0
        (.resp 200 ⟨none, none, some "tok", some 5⟩)).state 1 (.exn "down")).fetches = 0
    ∧ (get_token 0 (get_token 0 TMState.init 0
        (.resp 200 ⟨none, none, some "tok", some 5⟩)).state 1 (.exn "down")).result
        = .ok "tok" := by
  refine ⟨?_, ?_, ?_⟩
  · exact C2_get_token_fetch_policy.2.1 0 0
      (.resp 200 ⟨none, none, some "tok", some 5⟩) (by norm_num)
  · exact (C2_get_token_fetch_policy.2.2.1 0 0 1 none none "tok" 5 (.exn "down")
      (by norm_num) (by norm_num)).1
  · exact (C2_get_token_fetch_policy.2.2.1 0 0 1 none none "tok" 5 (.exn "down")
      (by norm_num) (by norm_num)).2

/-- C7: the TokenState invariant (token present iff expiry present) holds
after construction and is preserved by `get_token`, `refresh`,
`is_expired` and `clear`, including failing fetches, provided every 200
token response carries both fields. -/
theorem C7_token_state_invariant :
    tmInv TMState.init
    ∧ (∀ (th : ℚ) (s : TMState) (now : ℚ) (fr : AuthFetchResult),
        tmInv s → wfFetch fr → tmInv (get_token th s now fr).state)
    ∧ (∀ (s : TMState) (fr : AuthFetchResult),
        tmInv s → wfFetch fr → tmInv (refresh s fr).state)
    ∧ (∀ (s : TMState) (now : ℚ), tmInv s → tmInv (isExpiredRun s now).2.1)
    ∧ (∀ (s : TMState), tmInv (clear s)) := by
  refine ⟨rfl, ?_, ?_, ?_, ?_⟩
  · intro th s now fr hs hw
    by_cases h : needs_refresh th s now = true
    · have hinv := fetch_token_inv s fr hs hw
      simp only [get_token, h, if_true]
      cases he : (fetch_token s fr).err with
      | some e => simpa [he] using hinv
      | none =>
        cases ht : (fetch_token s fr).state.token with
        | some t => simpa [he, ht] using hinv
        | none => simpa [he, ht] using hinv
    · simp only [Bool.not_eq_true] at h
      simp only [get_token, h, Bool.false_eq_true, if_false]
      cases ht : s.token with
      | some t => simpa [ht] using hs
      | none => simpa [ht] using hs
  · intro s fr hs hw
    have hinv := fetch_token_inv s fr hs hw
    simp only [refresh]
    cases he : (fetch_token s fr).err with
    | some e => simpa [he] using hinv
    | none =>
      cases ht : (fetch_token s fr).state.token with
      | some t => simpa [he, ht] using hinv
      | none => simpa [he, ht] using hinv
  · intro s now hs
    exact hs
  · intro s
    rfl

/-- C7 witness: a failing fetch (transport exception) on a fresh manager
preserves the invariant. -/
theorem C7_witness :
    tmInv (get_token 300 TMState.init 0 (.exn "unreachable")).state := by
  exact C7_token_state_invariant.2.1 300 TMState.init 0 (.exn "unreachable") rfl trivial

/-- C9: `isExpired()` is a pure predicate: true iff no state is cached or
`now` is at or past `expiresAt` (under the TokenState invariant for the
token-absence reading), with no network call and no state mutation. -/
theorem C9_is_expired_pure :
    (∀ (s : TMState) (now : ℚ),
      (is_expired s now = true ↔ s.expiresAt = none ∨ ∃ e, s.expiresAt = some e ∧ now ≥ e))
    ∧ (∀ (s : TMState) (now : ℚ), tmInv s →
      (is_expired s now = true ↔ s.token = none ∨ ∃ e, s.expiresAt = some e ∧ now ≥ e))
    ∧ (∀ (s : TMState) (now : ℚ),
      (isExpiredRun s now).2.1 = s ∧ (isExpiredRun s now).2.2 = 0
      ∧ (isExpiredRun s now).1 = is_expired s now) := by
  refine ⟨?_, ?_, ?_⟩
  · intro s now
    cases he : s.expiresAt with
    | none => simp [is_expired, he]
    | some e => by_cases h : now ≥ e <;> simp [is_expired, he, h]
  · intro s now hinv
    cases he : s.expiresAt with
    | none =>
      have ht : s.token = none := by
        cases ht : s.token with
        | none => rfl
        | some t => simp [tmInv, ht, he] at hinv
      simp [is_expired, he, ht]
    | some e =>
      have ht : ∃ t, s.token = some t := by
        cases ht : s.token with
        | some t => exact ⟨t, rfl⟩
        | none => simp [tmInv, ht, he] at hinv
      obtain ⟨t, ht⟩ := ht
      by_cases h : now ≥ e <;> simp [is_expired, he, ht, h]
  · intro s now
    exact ⟨rfl, rfl, rfl⟩

/-- C9 witness: on a cached, unexpired state at `now = 1 < 5`,
`is_expired` is false and the call neither mutates state nor fetches. -/
theorem C9_witness :
    is_expired ⟨some "tok", some 5⟩ 1 = false
    ∧ (isExpiredRun ⟨some "tok", some 5⟩ 1).2.1 = ⟨some "tok", some 5⟩
    ∧ (isExpiredRun ⟨some "tok", some 5⟩ 1).2.2 = 0 := by
  refine ⟨?_, ?_, ?_⟩
  · have h := (C9_is_expired_pure.2.1 ⟨some "tok", some 5⟩ 1 rfl)
    by_contra hc
    simp only [Bool.not_eq_false] at hc
    have := h.mp hc
    rcases this with h1 | ⟨e, he, hge⟩
    · simp at h1
    · simp only [Option.some.injEq] at he
      subst he
      norm_num at hge
  · exact (C9_is_expired_pure.2.2 ⟨some "tok", some 5⟩ 1).1
  · exact (C9_is_expired_pure.2.2 ⟨some "tok", some 5⟩ 1).2.1

theorem fetchPage_okResp {α : Type} (iid : String) (rest : List String)
    (fl : List α) (hm : Bool) :
    fetchPage (iid :: rest) (okResp fl hm) = .ok (mkPage iid fl hm) := rfl

theorem totalLen_cons {α : Type} (fl : List α) (rest : List (List α)) :
    totalLen (fl :: rest) = fl.length + totalLen rest := by
  simp [totalLen]

theorem flatDone_stop {α : Type} (fp : Nat → Except SdkError (FlowPage α))
    (s : IterState α) (h : flatDone s) (f : Nat) :
    iterNext fp (f + 1) s = ⟨.stop, s, []⟩ := by
  obtain ⟨hl, q, hcp, hm, hlt⟩ := h
  simp [iterNext, hl, hcp, pageLoop, hlt, hm]

theorem pageLoop_append {α : Type} (fp : Nat → Except SdkError (FlowPage α)) :
    ∀ (fuel : Nat) (p : FlowPage α) (s : IterState α) (acc : List Nat),
      pageLoop fp fuel p s acc =
        ⟨(pageLoop fp fuel p s []).res, (pageLoop fp fuel p s []).state,
          acc ++ (pageLoop fp fuel p s []).reqs⟩ := by
  intro fuel
  induction fuel with
  | zero => intro p s acc; simp [pageLoop]
  | succ n ih =>
    intro p s acc
    by_cases hlt : s.flowIndex < p.flows.length
    · simp [pageLoop, hlt]
    · by_cases hm : p.has_more = true
      · cases hfp : fp s.pageNum with
        | error e => simp [pageLoop, hlt, hm, hfp]
        | ok q =>
          simp only [pageLoop, dif_neg hlt, hm, if_true, hfp]
          rw [ih q _ (acc ++ [s.pageNum]), ih q _ ([] ++ [s.pageNum])]
          simp
      · simp only [Bool.not_eq_true] at hm
        simp [pageLoop, hlt, hm]

theorem pageLoop_mono {α : Type} (fp : Nat → Except SdkError (FlowPage α)) :
    ∀ (f f' : Nat) (p : FlowPage α) (s : IterState α) (acc : List Nat),
      f ≤ f' → (pageLoop fp f p s acc).res ≠ .fuelOut →
      pageLoop fp f' p s acc = pageLoop fp f p s acc := by
  intro f
  induction f with
  | zero =>
    intro f' p s acc _ hres
    simp [pageLoop] at hres
  | succ n ih =>
    intro f' p s acc hle hres
    obtain ⟨m, rfl⟩ : ∃ m, f' = m + 1 := ⟨f' - 1, by omega⟩
    have hnm : n ≤ m := by omega
    by_cases hlt : s.flowIndex < p.flows.length
    · simp [pageLoop, hlt]
    · by_cases hm : p.has_more = true
      · cases hfp : fp s.pageNum with
        | error e => simp [pageLoop, hlt, hm, hfp]
        | ok q =>
          simp only [pageLoop, dif_neg hlt, hm, if_true, hfp] at hres ⊢
          exact ih m q _ _ hnm hres
      · simp only [Bool.not_eq_true] at hm
        simp [pageLoop, hlt, hm]

theorem pageLoop_no_fuelOut {α : Type} (fp : Nat → Except SdkError (FlowPage α))
    (iid : String) :
    ∀ (rest : List (List α)) (p : FlowPage α) (s : IterState α) (acc : List Nat)
      (fuel : Nat),
      s.currentPage = some p → p.has_more = !rest.isEmpty →
      pagesAt fp iid s.pageNum rest → fuel ≥ rest.length + 1 →
      (pageLoop fp fuel p s acc).res ≠ .fuelOut := by
  intro rest
  induction rest with
  | nil =>
    intro p s acc fuel _ hm _ hf
    obtain ⟨m, rfl⟩ : ∃ m, fuel = m + 1 := ⟨fuel - 1, by omega⟩
    simp only [List.isEmpty_nil, Bool.not_true] at hm
    by_cases hlt : s.flowIndex < p.flows.length
    · simp [pageLoop, hlt]
    · simp [pageLoop, hlt, hm]
  | cons fl rest' ih =>
    intro p s acc fuel _ hm hpa hf
    obtain ⟨m, rfl⟩ : ∃ m, fuel = m + 1 := ⟨fuel - 1, by omega⟩
    simp only [List.isEmpty_cons, Bool.not_false] at hm
    by_cases hlt : s.flowIndex < p.flows.length
    · simp [pageLoop, hlt]
    · obtain ⟨hfp, hpa'⟩ := hpa
      simp only [pageLoop, dif_neg hlt, hm, if_true, hfp]
      exact ih (mkPage iid fl (!rest'.isEmpty)) _ _ m rfl rfl hpa' (by simp at hf ⊢; omega)

theorem iterNext_of_currentPage {α : Type} (fp : Nat → Except SdkError (FlowPage α))
    (fuel : Nat) (s : IterState α) (p : FlowPage α)
    (hl : limitHit s = false) (hcp : s.currentPage = some p) :
    iterNext fp fuel s = pageLoop fp fuel p s [] := by
  simp [iterNext, hl, hcp]

theorem runFlat_prefix {α : Type} (fp : Nat → Except SdkError (FlowPage α)) (IF : Nat)
    (s s₂ : IterState α) (r0 : List Nat)
    (h : iterNext fp IF s =
      ⟨(iterNext fp IF s₂).res, (iterNext fp IF s₂).state,
        r0 ++ (iterNext fp IF s₂).reqs⟩) :
    ∀ steps, runFlat fp IF (steps + 1) s =
      ⟨(runFlat fp IF (steps + 1) s₂).yields, (runFlat fp IF (steps + 1) s₂).state,
        r0 ++ (runFlat fp IF (steps + 1) s₂).reqs,
        (runFlat fp IF (steps + 1) s₂).stopped,
        (runFlat fp IF (steps + 1) s₂).error⟩ := by
  intro steps
  rcases ho : iterNext fp IF s₂ with ⟨res, st, rq⟩
  rw [ho] at h
  cases res with
  | yield a =>
    simp only [runFlat, h, ho]
    simp [List.append_assoc]
  | stop => simp only [runFlat, h, ho]
  | raised e => simp only [runFlat, h, ho]
  | fuelOut => simp only [runFlat, h, ho]

theorem iterNext_first_fetch {α : Type} (fp : Nat → Except SdkError (FlowPage α))
    (IF : Nat) (s : IterState α) (q : FlowPage α)
    (hl : limitHit s = false) (hcp : s.currentPage = none) (hfp : fp 0 = .ok q) :
    iterNext fp IF s =
      ⟨(iterNext fp IF { s with currentPage := some q, pageNum := 1 }).res,
        (iterNext fp IF { s with currentPage := some q, pageNum := 1 }).state,
        [0] ++ (iterNext fp IF { s with currentPage := some q, pageNum := 1 }).reqs⟩ := by
  have hl' : limitHit { s with currentPage := some q, pageNum := 1 } = false := hl
  rw [iterNext_of_currentPage fp IF _ q hl' rfl]
  simp only [iterNext, hl, Bool.false_eq_true, if_false, hcp, hfp]
  exact pageLoop_append fp IF q _ [0]

theorem iterNext_transition {α : Type} (fp : Nat → Except SdkError (FlowPage α))
    (iid : String) (IF : Nat) (s : IterState α) (p q : FlowPage α) (rest : List (List α))
    (hl : limitHit s = false) (hcp : s.currentPage = some p)
    (hb : ¬ s.flowIndex < p.flows.length) (hm : p.has_more = true)
    (hfp : fp s.pageNum = .ok q)
    (hq : q.has_more = !rest.isEmpty)
    (hpa : pagesAt fp iid (s.pageNum + 1) rest)
    (hIF : IF ≥ rest.length + 2) :
    iterNext fp IF s =
      ⟨(iterNext fp IF { s with currentPage := some q, pageNum := s.pageNum + 1, flowIndex := 0 }).res,
        (iterNext fp IF { s with currentPage := some q, pageNum := s.pageNum + 1, flowIndex := 0 }).state,
        [s.pageNum] ++ (iterNext fp IF { s with currentPage := some q, pageNum := s.pageNum + 1, flowIndex := 0 }).reqs⟩ := by
  obtain ⟨m, rfl⟩ : ∃ m, IF = m + 1 := ⟨IF - 1, by omega⟩
  have hl' : limitHit { s with currentPage := some q, pageNum := s.pageNum + 1, flowIndex := 0 } = false := hl
  have hterm : (pageLoop fp m q { s with currentPage := some q, pageNum := s.pageNum + 1, flowIndex := 0 } ([] : List Nat)).res ≠ .fuelOut :=
    pageLoop_no_fuelOut fp iid rest q _ [] m rfl hq hpa (by simp at hIF ⊢; omega)
  have hmono := pageLoop_mono fp m (m + 1) q { s with currentPage := some q, pageNum := s.pageNum + 1, flowIndex := 0 } [] (by omega) hterm
  rw [iterNext_of_currentPage fp (m + 1) _ q hl' rfl, hmono,
    iterNext_of_currentPage fp (m + 1) s p hl hcp]
  simp only [pageLoop, dif_neg hb, hm, if_true, hfp]
  rw [pageLoop_append fp m q _ ([] ++ [s.pageNum])]
  simp

theorem runFlat_drain {α : Type} (fp : Nat → Except SdkError (FlowPage α)) (IF : Nat) :
    ∀ (m : Nat) (p : FlowPage α) (s : IterState α) (steps : Nat),
      s.currentPage = some p →
      s.flowIndex + m ≤ p.flows.length →
      limitAllows s m →
      IF ≥ 1 →
      runFlat fp IF (m + steps) s =
        ⟨((p.flows.drop s.flowIndex).take m)
            ++ (runFlat fp IF steps { s with flowIndex := s.flowIndex + m, totalYielded := s.totalYielded + m }).yields,
          (runFlat fp IF steps { s with flowIndex := s.flowIndex + m, totalYielded := s.totalYielded + m }).state,
          (runFlat fp IF steps { s with flowIndex := s.flowIndex + m, totalYielded := s.totalYielded + m }).reqs,
          (runFlat fp IF steps { s with flowIndex := s.flowIndex + m, totalYielded := s.totalYielded + m }).stopped,
          (runFlat fp IF steps { s with flowIndex := s.flowIndex + m, totalYielded := s.totalYielded + m }).error⟩ := by
  intro m
  induction m with
  | zero =>
    intro p s steps hcp hj hlim hIF
    rw [Nat.zero_add]
    simp
  | succ m ih =>
    intro p s steps hcp hj hlim hIF
    rcases s with ⟨cp, pn, fi, ty, lim, ex⟩
    obtain ⟨f, rfl⟩ : ∃ f, IF = f + 1 := ⟨IF - 1, by omega⟩
    have hsucc : (m + 1) + steps = (m + steps) + 1 := by omega
    rw [hsucc]
    simp only at hj
    have hl : limitHit (⟨cp, pn, fi, ty, lim, ex⟩ : IterState α) = false := by
      cases hL : lim with
      | none => simp [limitHit, hL]
      | some L =>
        have := hlim L (by simp [hL])
        simp only at this
        simp [limitHit, hL]
        omega
    have hlt : fi < p.flows.length := by omega
    have hstep : iterNext fp (f + 1) (⟨cp, pn, fi, ty, lim, ex⟩ : IterState α) =
        ⟨.yield (p.flows.get ⟨fi, hlt⟩), ⟨cp, pn, fi + 1, ty + 1, lim, ex⟩, []⟩ := by
      rw [iterNext_of_currentPage fp (f + 1) _ p hl hcp]
      simp [pageLoop, hlt]
    simp only [runFlat, hstep]
    have hih := ih p (⟨cp, pn, fi + 1, ty + 1, lim, ex⟩ : IterState α) steps hcp
      (by simp only; omega)
      (by intro L hL; have := hlim L hL; simp only at this ⊢; omega)
      (by omega)
    rw [hih]
    have hdrop : p.flows.drop fi = p.flows.get ⟨fi, hlt⟩ :: p.flows.drop (fi + 1) := by
      rw [List.get_eq_getElem]
      exact List.drop_eq_getElem_cons hlt
    have e1 : fi + 1 + m = fi + (m + 1) := by omega
    have e2 : ty + 1 + m = ty + (m + 1) := by omega
    simp only [e1, e2]
    rw [hdrop, List.take_succ_cons]
    simp

theorem limitHit_none {α : Type} (s : IterState α) (h : s.limit = none) :
    limitHit s = false := by
  simp [limitHit, h]

theorem runFlat_noLimit {α : Type} (fp : Nat → Except SdkError (FlowPage α)) (iid : String)
    (IF : Nat) :
    ∀ (rest : List (List α)) (p : FlowPage α) (s : IterState α) (steps : Nat),
      s.currentPage = some p →
      s.flowIndex ≤ p.flows.length →
      s.limit = none →
      p.has_more = !rest.isEmpty →
      pagesAt fp iid s.pageNum rest →
      IF ≥ rest.length + 2 →
      steps ≥ (p.flows.length - s.flowIndex) + totalLen rest + rest.length + 1 →
      (runFlat fp IF steps s).yields = (p.flows.drop s.flowIndex) ++ rest.flatten
      ∧ (runFlat fp IF steps s).reqs = List.range' s.pageNum rest.length
      ∧ (runFlat fp IF steps s).stopped = true
      ∧ (runFlat fp IF steps s).error = none
      ∧ flatDone (runFlat fp IF steps s).state := by
  intro rest
  induction rest with
  | nil =>
    intro p s steps hcp hj hlim hm hpa hIF hsteps
    simp only [List.isEmpty_nil, Bool.not_true] at hm
    simp only [totalLen, List.map_nil, List.sum_nil, List.length_nil] at hsteps
    obtain ⟨f, rfl⟩ : ∃ f, IF = f + 1 := ⟨IF - 1, by omega⟩
    obtain ⟨st, hst⟩ : ∃ st, steps - (p.flows.length - s.flowIndex) = st + 1 :=
      ⟨steps - (p.flows.length - s.flowIndex) - 1, by omega⟩
    have hsplit : steps = (p.flows.length - s.flowIndex) + (st + 1) := by omega
    have hdrain := runFlat_drain fp (f + 1) (p.flows.length - s.flowIndex) p s (st + 1)
      hcp (by omega) (by intro L hL; rw [hlim] at hL; simp at hL) (by omega)
    have hfd : flatDone ({ s with flowIndex := s.flowIndex + (p.flows.length - s.flowIndex), totalYielded := s.totalYielded + (p.flows.length - s.flowIndex) } : IterState α) := by
      refine ⟨limitHit_none _ hlim, p, hcp, hm, ?_⟩
      show ¬ s.flowIndex + (p.flows.length - s.flowIndex) < p.flows.length
      omega
    have hrun : runFlat fp (f + 1) (st + 1) ({ s with flowIndex := s.flowIndex + (p.flows.length - s.flowIndex), totalYielded := s.totalYielded + (p.flows.length - s.flowIndex) } : IterState α) = ⟨[], { s with flowIndex := s.flowIndex + (p.flows.length - s.flowIndex), totalYielded := s.totalYielded + (p.flows.length - s.flowIndex) }, [], true, none⟩ := by
      simp only [runFlat, flatDone_stop fp _ hfd f]
    have htake : (p.flows.drop s.flowIndex).take (p.flows.length - s.flowIndex) =
        p.flows.drop s.flowIndex :=
      List.take_of_length_le (by rw [List.length_drop])
    rw [hsplit, hdrain, hrun]
    refine ⟨by simp [htake], by simp [List.range'], rfl, rfl, hfd⟩
  | cons fl rest' ih =>
    intro p s steps hcp hj hlim hm hpa hIF hsteps
    simp only [List.isEmpty_cons, Bool.not_false] at hm
    obtain ⟨hfp0, hpa'⟩ := hpa
    rw [totalLen_cons] at hsteps
    simp only [List.length_cons] at hsteps hIF
    obtain ⟨st, hst⟩ : ∃ st, steps - (p.flows.length - s.flowIndex) = st + 1 :=
      ⟨steps - (p.flows.length - s.flowIndex) - 1, by omega⟩
    have hsplit : steps = (p.flows.length - s.flowIndex) + (st + 1) := by omega
    have hdrain := runFlat_drain fp IF (p.flows.length - s.flowIndex) p s (st + 1)
      hcp (by omega) (by intro L hL; rw [hlim] at hL; simp at hL) (by omega)
    have htrans := iterNext_transition fp iid IF
      ({ s with flowIndex := s.flowIndex + (p.flows.length - s.flowIndex), totalYielded := s.totalYielded + (p.flows.length - s.flowIndex) } : IterState α)
      p (mkPage iid fl (!rest'.isEmpty)) rest'
      (limitHit_none _ hlim) hcp
      (by show ¬ s.flowIndex + (p.flows.length - s.flowIndex) < p.flows.length; omega)
      hm hfp0 rfl hpa' (by omega)
    have hpre := runFlat_prefix fp IF _ _ [s.pageNum] htrans st
    have hihres := ih (mkPage iid fl (!rest'.isEmpty))
      ({ currentPage := some (mkPage iid fl (!rest'.isEmpty)), pageNum := s.pageNum + 1, flowIndex := 0, totalYielded := s.totalYielded + (p.flows.length - s.flowIndex), limit := s.limit, exhausted := s.exhausted } : IterState α)
      (st + 1) rfl (by simp) hlim rfl hpa' (by omega)
      (by show st + 1 ≥ (mkPage iid fl (!rest'.isEmpty)).flows.length - 0 + totalLen rest' + rest'.length + 1
          simp only [mkPage, Nat.sub_zero]
          omega)
    have htake : (p.flows.drop s.flowIndex).take (p.flows.length - s.flowIndex) =
        p.flows.drop s.flowIndex :=
      List.take_of_length_le (by rw [List.length_drop])
    rw [hsplit, hdrain, hpre]
    obtain ⟨hy, hr, hs', he, hfd⟩ := hihres
    refine ⟨?_, ?_, ?_, ?_, ?_⟩
    · simp only [RunOut.yields]
      rw [htake, hy]
      simp [mkPage]
    · simp only [RunOut.reqs]
      rw [hr]
      simp only [List.length_cons, List.range'_succ]
      simp
    · simpa using hs'
    · simpa using he
    · simpa using hfd

theorem scriptOfPages_pagesAt {α : Type} (iid : String) (insts : List String) :
    ∀ (rest pref : List (List α)),
      pagesAt (fpOf (iid :: insts) (scriptOfPages (pref ++ rest))) iid pref.length rest := by
  intro rest
  induction rest with
  | nil => intro pref; trivial
  | cons fl rest' ih =>
    intro pref
    constructor
    · have hlt : pref.length < (pref ++ fl :: rest').length := by simp
      have hget : (pref ++ fl :: rest').get ⟨pref.length, hlt⟩ = fl := by
        rw [List.get_eq_getElem, List.getElem_append_right (Nat.le_refl pref.length)]
        simp
      have hdec : decide (pref.length + 1 < (pref ++ fl :: rest').length) = !rest'.isEmpty := by
        cases rest' with
        | nil => simp
        | cons b bs => simp
      show fpOf (iid :: insts) (scriptOfPages (pref ++ fl :: rest')) pref.length = _
      simp only [fpOf, scriptOfPages, dif_pos hlt, hget, hdec, fetchPage_okResp]
    · have hih := ih (pref ++ [fl])
      simpa [List.append_assoc] using hih

/-- C1: over a scripted sequence of `N ≥ 1` pages in which pages
`0..N-2` report `more_data_available = true` and page `N-1` reports
`false`, flat iteration over a fresh iterator yields exactly the
concatenation of the pages' record lists in order, requests pages in
strictly increasing index order `0, 1, ..., N-1`, finishes cleanly, and
every subsequent flat-iteration call stops with no further record and no
further page fetch. -/
theorem C1_flat_iteration_concatenates (α : Type) (iid : String) (insts : List String)
    (pages : List (List α)) (hne : pages ≠ [])
    (IF steps : Nat) (hIF : IF ≥ pages.length + 2)
    (hsteps : steps ≥ totalLen pages + pages.length + 2) :
    (runFlat (fpOf (iid :: insts) (scriptOfPages pages)) IF steps (IterState.fresh α)).yields
        = pages.flatten
    ∧ (runFlat (fpOf (iid :: insts) (scriptOfPages pages)) IF steps (IterState.fresh α)).reqs
        = List.range pages.length
    ∧ (runFlat (fpOf (iid :: insts) (scriptOfPages pages)) IF steps
        (IterState.fresh α)).stopped = true
    ∧ (runFlat (fpOf (iid :: insts) (scriptOfPages pages)) IF steps
        (IterState.fresh α)).error = none
    ∧ ∀ f, iterNext (fpOf (iid :: insts) (scriptOfPages pages)) (f + 1)
          (runFlat (fpOf (iid :: insts) (scriptOfPages pages)) IF steps
            (IterState.fresh α)).state
        = ⟨.stop, (runFlat (fpOf (iid :: insts) (scriptOfPages pages)) IF steps
            (IterState.fresh α)).state, []⟩ := by
  obtain ⟨fl, rest, rfl⟩ : ∃ fl rest, pages = fl :: rest := by
    cases pages with
    | nil => exact absurd rfl hne
    | cons a l => exact ⟨a, l, rfl⟩
  have hpa : pagesAt (fpOf (iid :: insts) (scriptOfPages (fl :: rest))) iid 0 (fl :: rest) := by
    have h0 := scriptOfPages_pagesAt iid insts (fl :: rest) []
    simpa using h0
  obtain ⟨hfp0, hpa'⟩ := hpa
  rw [totalLen_cons] at hsteps
  simp only [List.length_cons] at hsteps hIF
  obtain ⟨st, rfl⟩ : ∃ st, steps = st + 1 := ⟨steps - 1, by omega⟩
  have htrans0 := iterNext_first_fetch (fpOf (iid :: insts) (scriptOfPages (fl :: rest)))
    IF (IterState.fresh α) (mkPage iid fl (!rest.isEmpty)) rfl rfl hfp0
  have hpre := runFlat_prefix (fpOf (iid :: insts) (scriptOfPages (fl :: rest))) IF
    (IterState.fresh α) _ [0] htrans0 st
  have hM := runFlat_noLimit (fpOf (iid :: insts) (scriptOfPages (fl :: rest))) iid IF
    rest (mkPage iid fl (!rest.isEmpty))
    ({ IterState.fresh α with currentPage := some (mkPage iid fl (!rest.isEmpty)), pageNum := 1 })
    (st + 1) rfl (by simp [IterState.fresh]) rfl rfl hpa' (by omega)
    (by show st + 1 ≥ (mkPage iid fl (!rest.isEmpty)).flows.length - 0 + totalLen rest + rest.length + 1
        simp only [mkPage, Nat.sub_zero]
        omega)
  obtain ⟨hy, hr, hstop, herr, hfd⟩ := hM
  rw [hpre]
  refine ⟨?_, ?_, by simpa using hstop, by simpa using herr, ?_⟩
  · simp only [RunOut.yields]
    rw [hy]
    simp [mkPage, IterState.fresh]
  · simp only [RunOut.reqs]
    rw [hr]
    simp only [List.length_cons, List.range_eq_range', List.range'_succ]
    simp
  · intro f
    simp only [RunOut.state]
    exact flatDone_stop _ _ (by simpa using hfd) f

/-- C1 witness: the scripted two-page run over `[[1, 2], [3]]` yields
`[1, 2, 3]`, requests pages `[0, 1]`, finishes cleanly, and one more
call yields nothing without a fetch. -/
theorem C1_witness :
    (runFlat (fpOf ["i"] (scriptOfPages [[1, 2], [3]])) 10 10 (IterState.fresh Nat)).yields
        = [1, 2, 3]
    ∧ (runFlat (fpOf ["i"] (scriptOfPages [[1, 2], [3]])) 10 10 (IterState.fresh Nat)).reqs
        = [0, 1]
    ∧ (runFlat (fpOf ["i"] (scriptOfPages [[1, 2], [3]])) 10 10 (IterState.fresh Nat)).stopped
        = true
    ∧ (runFlat (fpOf ["i"] (scriptOfPages [[1, 2], [3]])) 10 10 (IterState.fresh Nat)).error
        = none
    ∧ iterNext (fpOf ["i"] (scriptOfPages [[1, 2], [3]])) 1
          (runFlat (fpOf ["i"] (scriptOfPages [[1, 2], [3]])) 10 10 (IterState.fresh Nat)).state
        = ⟨.stop, (runFlat (fpOf ["i"] (scriptOfPages [[1, 2], [3]])) 10 10
            (IterState.fresh Nat)).state, []⟩ := by
  have h := C1_flat_iteration_concatenates Nat "i" [] [[1, 2], [3]] (by decide) 10 10
    (by norm_num) (by norm_num [totalLen])
  exact ⟨h.1, h.2.1, h.2.2.1, h.2.2.2.1, h.2.2.2.2 0⟩

theorem pagesNeeded_pos {α : Type} (fl : List α) (rest : List (List α)) (k : Nat)
    (hk : 0 < k) :
    pagesNeeded (fl :: rest) k = 1 + fetchesNeeded fl.length rest k := by
  obtain ⟨m, rfl⟩ : ∃ m, k = m + 1 := ⟨k - 1, by omega⟩
  simp [pagesNeeded, fetchesNeeded]

theorem runFlat_limitHit {α : Type} (fp : Nat → Except SdkError (FlowPage α))
    (IF st : Nat) (s : IterState α) (h : limitHit s = true) :
    runFlat fp IF (st + 1) s = ⟨[], s, [], true, none⟩ := by
  simp only [runFlat, iterNext, h, if_true]

theorem runFlat_withLimit {α : Type} (fp : Nat → Except SdkError (FlowPage α)) (iid : String)
    (IF : Nat) :
    ∀ (rest : List (List α)) (p : FlowPage α) (s : IterState α) (L steps : Nat),
      s.currentPage = some p →
      s.flowIndex ≤ p.flows.length →
      s.limit = some L →
      p.has_more = !rest.isEmpty →
      pagesAt fp iid s.pageNum rest →
      IF ≥ rest.length + 2 →
      steps ≥ (p.flows.length - s.flowIndex) + totalLen rest + rest.length + 2 →
      (runFlat fp IF steps s).yields
          = ((p.flows.drop s.flowIndex) ++ rest.flatten).take (L - s.totalYielded)
      ∧ (runFlat fp IF steps s).reqs
          = List.range' s.pageNum
              (fetchesNeeded (p.flows.length - s.flowIndex) rest (L - s.totalYielded))
      ∧ (runFlat fp IF steps s).stopped = true
      ∧ (runFlat fp IF steps s).error = none := by
  intro rest
  induction rest with
  | nil =>
    intro p s L steps hcp hj hlim hm hpa hIF hsteps
    simp only [List.isEmpty_nil, Bool.not_true] at hm
    simp only [totalLen, List.map_nil, List.sum_nil, List.length_nil] at hsteps
    by_cases h0 : L - s.totalYielded = 0
    · obtain ⟨st, rfl⟩ : ∃ st, steps = st + 1 := ⟨steps - 1, by omega⟩
      have hl : limitHit s = true := by
        simp only [limitHit, hlim, decide_eq_true_eq]
        omega
      rw [runFlat_limitHit fp IF st s hl, h0]
      simp [fetchesNeeded]
    · by_cases hwithin : L - s.totalYielded ≤ p.flows.length - s.flowIndex
      · obtain ⟨st, hst⟩ : ∃ st, steps - (L - s.totalYielded) = st + 1 :=
          ⟨steps - (L - s.totalYielded) - 1, by omega⟩
        have hsplit : steps = (L - s.totalYielded) + (st + 1) := by omega
        have hdrain := runFlat_drain fp IF (L - s.totalYielded) p s (st + 1) hcp
          (by omega)
          (by intro L' hL'; rw [hlim] at hL'; simp only [Option.some.injEq] at hL'; omega)
          (by omega)
        have hl2 : limitHit ({ s with flowIndex := s.flowIndex + (L - s.totalYielded), totalYielded := s.totalYielded + (L - s.totalYielded) } : IterState α) = true := by
          simp only [limitHit, hlim, decide_eq_true_eq]
          show s.totalYielded + (L - s.totalYielded) ≥ L
          omega
        rw [hsplit, hdrain, runFlat_limitHit fp IF st _ hl2]
        refine ⟨by simp, by simp [fetchesNeeded, hwithin], rfl, rfl⟩
      · obtain ⟨f, rfl⟩ : ∃ f, IF = f + 1 := ⟨IF - 1, by omega⟩
        obtain ⟨st, hst⟩ : ∃ st, steps - (p.flows.length - s.flowIndex) = st + 1 :=
          ⟨steps - (p.flows.length - s.flowIndex) - 1, by omega⟩
        have hsplit : steps = (p.flows.length - s.flowIndex) + (st + 1) := by omega
        have hdrain := runFlat_drain fp (f + 1) (p.flows.length - s.flowIndex) p s (st + 1)
          hcp (by omega)
          (by intro L' hL'; rw [hlim] at hL'; simp only [Option.some.injEq] at hL'; omega)
          (by omega)
        have hfd : flatDone ({ s with flowIndex := s.flowIndex + (p.flows.length - s.flowIndex), totalYielded := s.totalYielded + (p.flows.length - s.flowIndex) } : IterState α) := by
          refine ⟨?_, p, hcp, hm, ?_⟩
          · simp only [limitHit, hlim]
            rw [decide_eq_false_iff_not]
            show ¬ s.totalYielded + (p.flows.length - s.flowIndex) ≥ L
            omega
          · show ¬ s.flowIndex + (p.flows.length - s.flowIndex) < p.flows.length
            omega
        have hrun : runFlat fp (f + 1) (st + 1) ({ s with flowIndex := s.flowIndex + (p.flows.length - s.flowIndex), totalYielded := s.totalYielded + (p.flows.length - s.flowIndex) } : IterState α) = ⟨[], { s with flowIndex := s.flowIndex + (p.flows.length - s.flowIndex), totalYielded := s.totalYielded + (p.flows.length - s.flowIndex) }, [], true, none⟩ := by
          simp only [runFlat, flatDone_stop fp _ hfd f]
        have htk1 : (p.flows.drop s.flowIndex).take (p.flows.length - s.flowIndex) =
            p.flows.drop s.flowIndex :=
          List.take_of_length_le (by rw [List.length_drop])
        have htk2 : (p.flows.drop s.flowIndex).take (L - s.totalYielded) =
            p.flows.drop s.flowIndex :=
          List.take_of_length_le (by rw [List.length_drop]; omega)
        rw [hsplit, hdrain, hrun]
        refine ⟨?_, ?_, rfl, rfl⟩
        · simp only [RunOut.yields, List.flatten_nil, List.append_nil]
          rw [htk1, htk2]
        · simp only [RunOut.reqs]
          obtain ⟨k', hk'⟩ : ∃ k', L - s.totalYielded - (p.flows.length - s.flowIndex) = k' + 1 :=
            ⟨L - s.totalYielded - (p.flows.length - s.flowIndex) - 1, by omega⟩
          simp [fetchesNeeded, hwithin, hk', pagesNeeded]
  | cons fl rest' ih =>
    intro p s L steps hcp hj hlim hm hpa hIF hsteps
    simp only [List.isEmpty_cons, Bool.not_false] at hm
    obtain ⟨hfp0, hpa'⟩ := hpa
    rw [totalLen_cons] at hsteps
    simp only [List.length_cons] at hsteps hIF
    by_cases h0 : L - s.totalYielded = 0
    · obtain ⟨st, rfl⟩ : ∃ st, steps = st + 1 := ⟨steps - 1, by omega⟩
      have hl : limitHit s = true := by
        simp only [limitHit, hlim, decide_eq_true_eq]
        omega
      rw [runFlat_limitHit fp IF st s hl, h0]
      simp [fetchesNeeded]
    · by_cases hwithin : L - s.totalYielded ≤ p.flows.length - s.flowIndex
      · obtain ⟨st, hst⟩ : ∃ st, steps - (L - s.totalYielded) = st + 1 :=
          ⟨steps - (L - s.totalYielded) - 1, by omega⟩
        have hsplit : steps = (L - s.totalYielded) + (st + 1) := by omega
        have hdrain := runFlat_drain fp IF (L - s.totalYielded) p s (st + 1) hcp
          (by omega)
          (by intro L' hL'; rw [hlim] at hL'; simp only [Option.some.injEq] at hL'; omega)
          (by omega)
        have hl2 : limitHit ({ s with flowIndex := s.flowIndex + (L - s.totalYielded), totalYielded := s.totalYielded + (L - s.totalYielded) } : IterState α) = true := by
          simp only [limitHit, hlim, decide_eq_true_eq]
          show s.totalYielded + (L - s.totalYielded) ≥ L
          omega
        have htk : ((p.flows.drop s.flowIndex) ++ (fl :: rest').flatten).take (L - s.totalYielded)
            = (p.flows.drop s.flowIndex).take (L - s.totalYielded) :=
          List.take_append_of_le_length (by rw [List.length_drop]; omega)
        rw [hsplit, hdrain, runFlat_limitHit fp IF st _ hl2]
        refine ⟨?_, by simp [fetchesNeeded, hwithin], rfl, rfl⟩
        simp only [RunOut.yields, List.append_nil]
        rw [htk]
      · obtain ⟨st, hst⟩ : ∃ st, steps - (p.flows.length - s.flowIndex) = st + 1 :=
          ⟨steps - (p.flows.length - s.flowIndex) - 1, by omega⟩
        have hsplit : steps = (p.flows.length - s.flowIndex) + (st + 1) := by omega
        have hdrain := runFlat_drain fp IF (p.flows.length - s.flowIndex) p s (st + 1)
          hcp (by omega)
          (by intro L' hL'; rw [hlim] at hL'; simp only [Option.some.injEq] at hL'; omega)
          (by omega)
        have hlimf : limitHit ({ s with flowIndex := s.flowIndex + (p.flows.length - s.flowIndex), totalYielded := s.totalYielded + (p.flows.length - s.flowIndex) } : IterState α) = false := by
          simp only [limitHit, hlim]
          rw [decide_eq_false_iff_not]
          show ¬ s.totalYielded + (p.flows.length - s.flowIndex) ≥ L
          omega
        have htrans := iterNext_transition fp iid IF
          ({ s with flowIndex := s.flowIndex + (p.flows.length - s.flowIndex), totalYielded := s.totalYielded + (p.flows.length - s.flowIndex) } : IterState α)
          p (mkPage iid fl (!rest'.isEmpty)) rest'
          hlimf hcp
          (by show ¬ s.flowIndex + (p.flows.length - s.flowIndex) < p.flows.length; omega)
          hm hfp0 rfl hpa' (by omega)
        have hpre := runFlat_prefix fp IF _ _ [s.pageNum] htrans st
        have hihres := ih (mkPage iid fl (!rest'.isEmpty))
          ({ currentPage := some (mkPage iid fl (!rest'.isEmpty)), pageNum := s.pageNum + 1, flowIndex := 0, totalYielded := s.totalYielded + (p.flows.length - s.flowIndex), limit := s.limit, exhausted := s.exhausted } : IterState α)
          L (st + 1) rfl (by simp) hlim rfl hpa' (by omega)
          (by show st + 1 ≥ (mkPage iid fl (!rest'.isEmpty)).flows.length - 0 + totalLen rest' + rest'.length + 2
              simp only [mkPage, Nat.sub_zero]
              omega)
        obtain ⟨hy, hr, hs3, he⟩ := hihres
        have harith : L - (s.totalYielded + (p.flows.length - s.flowIndex)) =
            L - s.totalYielded - (p.flows.length - s.flowIndex) := by omega
        have htake : (p.flows.drop s.flowIndex).take (p.flows.length - s.flowIndex) =
            p.flows.drop s.flowIndex :=
          List.take_of_length_le (by rw [List.length_drop])
        have htake2 : (p.flows.drop s.flowIndex).take (L - s.totalYielded) =
            p.flows.drop s.flowIndex :=
          List.take_of_length_le (by rw [List.length_drop]; omega)
        have hfn : fetchesNeeded (p.flows.length - s.flowIndex) (fl :: rest')
            (L - s.totalYielded) = 1 + fetchesNeeded fl.length rest'
              (L - s.totalYielded - (p.flows.length - s.flowIndex)) := by
          rw [fetchesNeeded, if_neg hwithin, pagesNeeded_pos _ _ _ (by omega)]
        rw [hsplit, hdrain, hpre]
        refine ⟨?_, ?_, by simpa using hs3, by simpa using he⟩
        · simp only [RunOut.yields]
          rw [htake]
          rw [show (runFlat fp IF (st + 1)
              ({ currentPage := some (mkPage iid fl (!rest'.isEmpty)), pageNum := s.pageNum + 1, flowIndex := 0, totalYielded := s.totalYielded + (p.flows.length - s.flowIndex), limit := s.limit, exhausted := s.exhausted } : IterState α)).yields
              = ((fl ++ rest'.flatten).take (L - s.totalYielded - (p.flows.length - s.flowIndex)))
            from by rw [hy]; simp [mkPage, harith]]
          rw [List.flatten_cons]
          conv_rhs => rw [List.take_append_eq_append_take]
          rw [htake2, List.length_drop]
        · simp only [RunOut.reqs]
          rw [hfn]
          rw [show (runFlat fp IF (st + 1)
              ({ currentPage := some (mkPage iid fl (!rest'.isEmpty)), pageNum := s.pageNum + 1, flowIndex := 0, totalYielded := s.totalYielded + (p.flows.length - s.flowIndex), limit := s.limit, exhausted := s.exhausted } : IterState α)).reqs
              = List.range' (s.pageNum + 1) (fetchesNeeded fl.length rest'
                  (L - s.totalYielded - (p.flows.length - s.flowIndex)))
            from by rw [hr]; simp [mkPage, harith]]
          rw [Nat.add_comm 1 _, List.range'_succ]
          simp

/-- C4: applying `take k` before any consumption caps flat iteration over
the scripted pages at exactly `min k (total available)` records, performs
no page fetch beyond the pages needed to produce the `k`-th record, and
`take` returns the same iterator with only the record cap overwritten. -/
theorem C4_take_caps_flat_iteration (α : Type) (iid : String) (insts : List String)
    (pages : List (List α)) (k : Nat) (hne : pages ≠ [])
    (IF steps : Nat) (hIF : IF ≥ pages.length + 2)
    (hsteps : steps ≥ totalLen pages + pages.length + 3) :
    (∀ (s : IterState α) (n : Nat), (s.take n).currentPage = s.currentPage
      ∧ (s.take n).pageNum = s.pageNum ∧ (s.take n).flowIndex = s.flowIndex
      ∧ (s.take n).totalYielded = s.totalYielded ∧ (s.take n).exhausted = s.exhausted
      ∧ (s.take n).limit = some n)
    ∧ (runFlat (fpOf (iid :: insts) (scriptOfPages pages)) IF steps
        ((IterState.fresh α).take k)).yields = pages.flatten.take k
    ∧ (runFlat (fpOf (iid :: insts) (scriptOfPages pages)) IF steps
        ((IterState.fresh α).take k)).yields.length = min k pages.flatten.length
    ∧ (runFlat (fpOf (iid :: insts) (scriptOfPages pages)) IF steps
        ((IterState.fresh α).take k)).reqs = List.range (pagesNeeded pages k)
    ∧ (runFlat (fpOf (iid :: insts) (scriptOfPages pages)) IF steps
        ((IterState.fresh α).take k)).stopped = true
    ∧ (runFlat (fpOf (iid :: insts) (scriptOfPages pages)) IF steps
        ((IterState.fresh α).take k)).error = none := by
  have hframe : ∀ (s : IterState α) (n : Nat), (s.take n).currentPage = s.currentPage
      ∧ (s.take n).pageNum = s.pageNum ∧ (s.take n).flowIndex = s.flowIndex
      ∧ (s.take n).totalYielded = s.totalYielded ∧ (s.take n).exhausted = s.exhausted
      ∧ (s.take n).limit = some n :=
    fun s n => ⟨rfl, rfl, rfl, rfl, rfl, rfl⟩
  obtain ⟨fl, rest, rfl⟩ : ∃ fl rest, pages = fl :: rest := by
    cases pages with
    | nil => exact absurd rfl hne
    | cons a l => exact ⟨a, l, rfl⟩
  have hpa : pagesAt (fpOf (iid :: insts) (scriptOfPages (fl :: rest))) iid 0 (fl :: rest) := by
    have h0 := scriptOfPages_pagesAt iid insts (fl :: rest) []
    simpa using h0
  obtain ⟨hfp0, hpa'⟩ := hpa
  rw [totalLen_cons] at hsteps
  simp only [List.length_cons] at hsteps hIF
  obtain ⟨st, rfl⟩ : ∃ st, steps = st + 1 := ⟨steps - 1, by omega⟩
  by_cases hk : k = 0
  · subst hk
    have hl : limitHit ((IterState.fresh α).take 0) = true := rfl
    rw [runFlat_limitHit _ IF st _ hl]
    exact ⟨hframe, by simp, by simp, by simp [pagesNeeded], rfl, rfl⟩
  · have hlf : limitHit ((IterState.fresh α).take k) = false := by
      simp only [limitHit, IterState.take, IterState.fresh]
      rw [decide_eq_false_iff_not]
      omega
    have htrans0 := iterNext_first_fetch (fpOf (iid :: insts) (scriptOfPages (fl :: rest)))
      IF ((IterState.fresh α).take k) (mkPage iid fl (!rest.isEmpty)) hlf rfl hfp0
    have hpre := runFlat_prefix (fpOf (iid :: insts) (scriptOfPages (fl :: rest))) IF
      ((IterState.fresh α).take k) _ [0] htrans0 st
    have hML := runFlat_withLimit (fpOf (iid :: insts) (scriptOfPages (fl :: rest))) iid IF
      rest (mkPage iid fl (!rest.isEmpty))
      ({ (IterState.fresh α).take k with currentPage := some (mkPage iid fl (!rest.isEmpty)), pageNum := 1 })
      k (st + 1) rfl (by simp [IterState.take, IterState.fresh]) rfl rfl hpa' (by omega)
      (by show st + 1 ≥ (mkPage iid fl (!rest.isEmpty)).flows.length - 0 + totalLen rest + rest.length + 2
          simp only [mkPage, Nat.sub_zero]
          omega)
    obtain ⟨hy, hr, hstop, herr⟩ := hML
    rw [hpre]
    refine ⟨hframe, ?_, ?_, ?_, by simpa using hstop, by simpa using herr⟩
    · simp only [RunOut.yields]
      rw [hy]
      simp [mkPage, IterState.take, IterState.fresh]
    · simp only [RunOut.yields]
      rw [hy]
      simp [mkPage, IterState.take, IterState.fresh, List.length_take]
    · simp only [RunOut.reqs]
      rw [show (runFlat (fpOf (iid :: insts) (scriptOfPages (fl :: rest))) IF (st + 1)
          ({ (IterState.fresh α).take k with currentPage := some (mkPage iid fl (!rest.isEmpty)), pageNum := 1 })).reqs
          = List.range' 1 (fetchesNeeded fl.length rest k)
        from by rw [hr]; simp [mkPage, IterState.take, IterState.fresh]]
      rw [pagesNeeded_pos fl rest k (by omega), List.range_eq_range',
        Nat.add_comm 1 _, List.range'_succ]
      simp

/-- C4 witness: over scripted pages `[[1, 2], [3]]` with `take 2`, flat
iteration yields `[1, 2]` and only page 0 is fetched. -/
theorem C4_witness :
    (runFlat (fpOf ["i"] (scriptOfPages [[1, 2], [3]])) 10 10
        ((IterState.fresh Nat).take 2)).yields = [1, 2]
    ∧ (runFlat (fpOf ["i"] (scriptOfPages [[1, 2], [3]])) 10 10
        ((IterState.fresh Nat).take 2)).reqs = [0]
    ∧ (runFlat (fpOf ["i"] (scriptOfPages [[1, 2], [3]])) 10 10
        ((IterState.fresh Nat).take 2)).stopped = true := by
  have h := C4_take_caps_flat_iteration Nat "i" [] [[1, 2], [3]] 2 (by decide) 10 10
    (by norm_num) (by norm_num [totalLen])
  exact ⟨h.2.1, h.2.2.2.1, h.2.2.2.2.1⟩

theorem pageLoop_raised_frame {α : Type} (fp : Nat → Except SdkError (FlowPage α)) :
    ∀ (fuel : Nat) (p : FlowPage α) (s : IterState α) (acc : List Nat) (e : SdkError),
      (pageLoop fp fuel p s acc).res = .raised e →
      (pageLoop fp fuel p s acc).state.totalYielded = s.totalYielded
      ∧ (pageLoop fp fuel p s acc).state.exhausted = s.exhausted
      ∧ (pageLoop fp fuel p s acc).state.limit = s.limit := by
  intro fuel
  induction fuel with
  | zero => intro p s acc e h; simp [pageLoop] at h
  | succ n ih =>
    intro p s acc e h
    by_cases hlt : s.flowIndex < p.flows.length
    · simp [pageLoop, hlt] at h
    · by_cases hm : p.has_more = true
      · cases hfp : fp s.pageNum with
        | error e' =>
          simp only [pageLoop, dif_neg hlt, hm, if_true, hfp] at h ⊢
          exact ⟨trivial, trivial, trivial⟩
        | ok q =>
          simp only [pageLoop, dif_neg hlt, hm, if_true, hfp] at h ⊢
          exact ih q _ _ e h
      · simp only [Bool.not_eq_true] at hm
        simp [pageLoop, hlt, hm] at h

/-- C3: `nextPage()` returns absent immediately with no network call when
`exhausted`; otherwise it fetches the page at the current `pageNumber`,
increments `pageNumber`, sets `exhausted` exactly when the fetched page's
more-available flag is false, and returns the fetched page. -/
theorem C3_next_page_contract :
    ∀ {α : Type} (fp : Nat → Except SdkError (FlowPage α)) (s : IterState α),
      (s.exhausted = true → nextPage fp s = ⟨.ok none, s, []⟩)
      ∧ (s.exhausted = false → ∀ page, fp s.pageNum = .ok page →
          nextPage fp s =
            ⟨.ok (some page),
              { s with pageNum := s.pageNum + 1, exhausted := !page.has_more },
              [s.pageNum]⟩) := by
  intro α fp s
  constructor
  · intro h
    simp [nextPage, h]
  · intro h page hfp
    simp only [nextPage, h, Bool.false_eq_true, if_false, hfp]
    cases hhm : page.has_more <;> simp [h, hhm]

/-- C3 witness: on a fresh iterator a successful fetch of a final page
returns it, bumps `pageNumber` to 1 and sets `exhausted`; on an exhausted
iterator the call returns absent with no request. -/
theorem C3_witness :
    nextPage (fun _ => .ok (mkPage "i" [7, 8] false)) (IterState.fresh Nat) =
      ⟨.ok (some (mkPage "i" [7, 8] false)), ⟨none, 1, 0, 0, none, true⟩, [0]⟩
    ∧ nextPage (fun _ => (.ok (mkPage "i" [7, 8] false) : Except SdkError (FlowPage Nat)))
        ⟨none, 0, 0, 0, none, true⟩ = ⟨.ok none, ⟨none, 0, 0, 0, none, true⟩, []⟩ := by
  constructor
  · exact (C3_next_page_contract (fun _ => .ok (mkPage "i" [7, 8] false))
      (IterState.fresh Nat)).2 rfl (mkPage "i" [7, 8] false) rfl
  · exact (C3_next_page_contract (fun _ => .ok (mkPage "i" [7, 8] false))
      ⟨none, 0, 0, 0, none, true⟩).1 rfl

/-- C5 counterexample: a 401 during flat iteration raises the
authentication failure but leaves `pageNum = 1` (and a buffered page)
where the pre-call state had `pageNum = 0` and no buffered page, because
the same `__next__` call successfully fetched the empty page 0 first. -/
theorem C5_counterexample :
    (iterNext (fpOf ["i"] c5Script) 3 (IterState.fresh Nat)).res
      = .raised (.authenticationError "expired token" (some "token_expired"))
    ∧ (IterState.fresh Nat).pageNum = 0
    ∧ (iterNext (fpOf ["i"] c5Script) 3 (IterState.fresh Nat)).state.pageNum = 1
    ∧ (IterState.fresh Nat).currentPage = none
    ∧ (iterNext (fpOf ["i"] c5Script) 3 (IterState.fresh Nat)).state.currentPage
        = some (mkPage "i" [] true) := by
  refine ⟨rfl, rfl, rfl, rfl, rfl⟩

/-- C5 amended: a failed page fetch raises immediately and the failing
fetch itself never mutates cursor state — `next_page()` leaves every
component unchanged (in particular a 401 leaves `pageNumber` and
`exhausted` unchanged), and flat iteration leaves `totalYielded`,
`exhausted` and the record cap unchanged and performs no mutation when the
failing fetch is the first fetch of the call; however `currentPage`,
`pageNum` and `flowIndex` may reflect empty pages fetched successfully
earlier in the same flat-iteration call. -/
theorem C5_fetch_error_frame :
    ∀ {α : Type} (fp : Nat → Except SdkError (FlowPage α)) (s : IterState α) (e : SdkError),
      ((nextPage fp s).result = .error e → (nextPage fp s).state = s)
      ∧ (∀ m c, s.exhausted = false → fp s.pageNum = .error (.authenticationError m c) →
          (nextPage fp s).result = .error (.authenticationError m c)
          ∧ (nextPage fp s).state = s)
      ∧ (∀ fuel, (iterNext fp fuel s).res = .raised e →
          (iterNext fp fuel s).state.totalYielded = s.totalYielded
          ∧ (iterNext fp fuel s).state.exhausted = s.exhausted
          ∧ (iterNext fp fuel s).state.limit = s.limit)
      ∧ (s.currentPage = none → limitHit s = false → fp 0 = .error e →
          ∀ fuel, iterNext fp fuel s = ⟨.raised e, s, [0]⟩)
      ∧ (∀ p fuel, s.currentPage = some p → limitHit s = false →
          ¬ s.flowIndex < p.flows.length → p.has_more = true →
          fp s.pageNum = .error e →
          iterNext fp (fuel + 1) s = ⟨.raised e, s, [s.pageNum]⟩) := by
  intro α fp s e
  refine ⟨?_, ?_, ?_, ?_, ?_⟩
  · intro h
    by_cases hex : s.exhausted = true
    · simp [nextPage, hex] at h
    · simp only [Bool.not_eq_true] at hex
      cases hfp : fp s.pageNum with
      | error e' => simp [nextPage, hex, hfp]
      | ok page => simp [nextPage, hex, hfp] at h
  · intro m c hex hfp
    simp [nextPage, hex, hfp]
  · intro fuel h
    by_cases hl : limitHit s = true
    · simp [iterNext, hl] at h
    · simp only [Bool.not_eq_true] at hl
      cases hcp : s.currentPage with
      | some p =>
        simp only [iterNext, hl, Bool.false_eq_true, if_false, hcp] at h ⊢
        exact pageLoop_raised_frame fp fuel p s [] e h
      | none =>
        cases hfp : fp 0 with
        | error e' =>
          simp only [iterNext, hl, Bool.false_eq_true, if_false, hcp, hfp] at h ⊢
          exact ⟨trivial, trivial, trivial⟩
        | ok p =>
          simp only [iterNext, hl, Bool.false_eq_true, if_false, hcp, hfp] at h ⊢
          exact pageLoop_raised_frame fp fuel p _ [0] e h
  · intro hcp hl hfp fuel
    simp [iterNext, hl, hcp, hfp]
  · intro p fuel hcp hl hlt hhm hfp
    simp [iterNext, hl, hcp, pageLoop, hlt, hhm, hfp]

/-- C5 witness: a 401 on the very first fetch of a flat-iteration call and
on a `next_page()` call leaves the fresh cursor state unchanged. -/
theorem C5_witness :
    (nextPage (fun _ => (.error (.authenticationError "x" none) :
        Except SdkError (FlowPage Nat))) (IterState.fresh Nat)).state = IterState.fresh Nat
    ∧ iterNext (fun _ => (.error (.authenticationError "x" none) :
        Except SdkError (FlowPage Nat))) 3 (IterState.fresh Nat)
      = ⟨.raised (.authenticationError "x" none), IterState.fresh Nat, [0]⟩ := by
  constructor
  · exact (C5_fetch_error_frame (fun _ => .error (.authenticationError "x" none))
      (IterState.fresh Nat) (.authenticationError "x" none)).1 rfl
  · exact (C5_fetch_error_frame (fun _ => .error (.authenticationError "x" none))
      (IterState.fresh Nat) (.authenticationError "x" none)).2.2.2.1 rfl rfl rfl 3

/-- C6 amended: on a page fetch a 401 raises `AuthenticationError` with
the server-supplied code and message; a 400 raises `APIError` with status
400, error type `validation_error` and the server-supplied detail (not the
`ValidationError` class); any other non-200 raises `APIError` carrying the
status code. -/
theorem C6_fetch_error_mapping :
    ∀ {α : Type} (instances : List String) (resp : HttpResponse α),
      (resp.statusCode = 401 →
        fetchPage instances resp =
          .error (.authenticationError (resp.errField.getD "Authentication failed")
            resp.codeField))
      ∧ (resp.statusCode = 400 →
        fetchPage instances resp =
          .error (.apiError (resp.errObjMessage.getD "Validation failed") 400
            (some "validation_error") resp.errObjDetails))
      ∧ (resp.statusCode ≠ 401 → resp.statusCode ≠ 400 → resp.statusCode ≠ 200 →
        fetchPage instances resp =
          .error (.apiError ("Search request failed with status " ++ toString resp.statusCode)
            resp.statusCode none none)) := by
  intro α instances resp
  refine ⟨?_, ?_, ?_⟩
  · intro h
    simp [fetchPage, h]
  · intro h
    simp [fetchPage, h]
  · intro h1 h2 h3
    simp [fetchPage, h1, h2, h3]

/-- C6 counterexample: a 400 response raises the generic `APIError` (with
the `validation_error` tag), not the `ValidationError` exception class the
claim names. -/
theorem C6_counterexample :
    fetchPage ["i"] resp400x =
      .error (.apiError "bad query" 400 (some "validation_error") (some "unknown operator wi2"))
    ∧ raisesValidation (fetchPage ["i"] resp400x) = false := by
  exact ⟨rfl, rfl⟩

/-- C6 witness: concrete 401, 400 and 500 responses map to the three
error shapes. -/
theorem C6_witness :
    fetchPage ["i"] (⟨401, some "bad token", some "invalid_token", none, none,
        fun _ => none⟩ : HttpResponse Nat) =
      .error (.authenticationError "bad token" (some "invalid_token"))
    ∧ fetchPage ["i"] resp400x =
      .error (.apiError "bad query" 400 (some "validation_error")
        (some "unknown operator wi2"))
    ∧ fetchPage ["i"] (⟨500, none, none, none, none, fun _ => none⟩ : HttpResponse Nat) =
      .error (.apiError "Search request failed with status 500" 500 none none) := by
  refine ⟨?_, ?_, ?_⟩
  · exact (C6_fetch_error_mapping ["i"] _).1 rfl
  · exact (C6_fetch_error_mapping ["i"] resp400x).2.1 rfl
  · exact (C6_fetch_error_mapping ["i"] _).2.2 (by decide) (by decide) (by decide)

/-- C8: `first()` fetches and returns page 0 — one request, for page 0,
with the result of `_fetch_page(0)` — and leaves every component of the
flat-iteration state unchanged. -/
theorem C8_first_frame :
    ∀ {α : Type} (fp : Nat → Except SdkError (FlowPage α)) (s : IterState α),
      (firstPage fp s).1 = fp 0
      ∧ (firstPage fp s).2.2 = [0]
      ∧ (firstPage fp s).2.1.currentPage = s.currentPage
      ∧ (firstPage fp s).2.1.pageNum = s.pageNum
      ∧ (firstPage fp s).2.1.flowIndex = s.flowIndex
      ∧ (firstPage fp s).2.1.totalYielded = s.totalYielded
      ∧ (firstPage fp s).2.1.limit = s.limit
      ∧ (firstPage fp s).2.1.exhausted = s.exhausted := by
  intro α fp s
  exact ⟨rfl, rfl, rfl, rfl, rfl, rfl, rfl, rfl⟩

/-- C10: a 200 search response that lacks the first configured instance
id's key, or whose instance entry has every optional field absent, does
not raise: the fetch returns a page with defaulted fields (no records,
`found = 0`, `total = 0`, no more data), and flat iteration over such a
response stops after that single fetch with zero records and no error. -/
theorem C10_missing_instance_defaults :
    ∀ {α : Type} (iid : String) (rest : List String) (resp : HttpResponse α),
      resp.statusCode = 200 →
      (resp.instanceData iid = none ∨ resp.instanceData iid = some (InstanceData.empty α)) →
      fetchPage (iid :: rest) resp = .ok ⟨[], 0, 0, 0, 0, 1, false, 0, iid⟩
      ∧ (∀ steps innerFuel,
          runFlat (fun _ => fetchPage (iid :: rest) resp) (innerFuel + 1) (steps + 1)
              (IterState.fresh α)
            = ⟨[], ⟨some ⟨[], 0, 0, 0, 0, 1, false, 0, iid⟩, 1, 0, 0, none, false⟩,
                [0], true, none⟩) := by
  intro α iid rest resp h200 hmiss
  have hfetch : fetchPage (iid :: rest) resp = .ok ⟨[], 0, 0, 0, 0, 1, false, 0, iid⟩ := by
    rcases hmiss with hm | hm <;>
      simp [fetchPage, h200, hm, FlowPage.from_response, InstanceData.empty]
  refine ⟨hfetch, ?_⟩
  intro steps innerFuel
  simp [runFlat, iterNext, limitHit, IterState.fresh, hfetch, pageLoop]

/-- C10 witness: a 200 response whose body is an empty object yields the
defaulted page and a zero-record, single-fetch flat iteration. -/
theorem C10_witness :
    fetchPage ["i"] (⟨200, none, none, none, none, fun _ => none⟩ : HttpResponse Nat)
      = .ok ⟨[], 0, 0, 0, 0, 1, false, 0, "i"⟩
    ∧ runFlat (fun _ => fetchPage ["i"]
        (⟨200, none, none, none, none, fun _ => none⟩ : HttpResponse Nat)) 1 1
        (IterState.fresh Nat)
      = ⟨[], ⟨some ⟨[], 0, 0, 0, 0, 1, false, 0, "i"⟩, 1, 0, 0, none, false⟩,
          [0], true, none⟩ := by
  constructor
  · exact (C10_missing_instance_defaults "i" []
      (⟨200, none, none, none, none, fun _ => none⟩ : HttpResponse Nat) rfl (Or.inl rfl)).1
  · exact (C10_missing_instance_defaults "i" []
      (⟨200, none, none, none, none, fun _ => none⟩ : HttpResponse Nat) rfl (Or.inl rfl)).2 0 0

end ProphetSDK

